import Mathlib

/-!
A shallow embedding of the invoice-normalization and client-side query logic
of the frontInvApp frontend, covering `src/frontend/lib/api.ts`
(`normalizeInvoiceResponse`, the shape dispatch of
`ApiClient.getInvoicesByVendor`, and the catch clauses of the three API
operations) and `src/frontend/app/invoices/page.tsx` (the
filter/sort/paginate pipeline `processedInvoices` and `paginatedInvoices`).

Modelling conventions: JavaScript strings are `String`, numbers are `ℚ`
together with an explicit `JNum.nan` constructor where `NaN` can occur,
fields that may be `null`/`undefined` are `Option`, and a function that can
`throw` returns `Except String`.  Rational numbers stand in for IEEE
doubles; the claims under study involve only equality, ordering and
zero-tests of backend-supplied values, on which the two agree.
-/

namespace FrontInv

/-- A JavaScript number that may be `NaN`. -/
inductive JNum where
  | nan
  | num (q : ℚ)
deriving DecidableEq

/-- JS truthiness of an optional string field: `undefined`, `null` and the
empty string are falsy. -/
def truthyS : Option String → Bool
  | some s => decide (s ≠ "")
  | none => false

/-- The JS `x || d` idiom on an optional string field with string default
`d`. -/
def jsOrS (v : Option String) (d : String) : String :=
  match v with
  | some s => if s = "" then d else s
  | none => d

/-- The JS `x || d` idiom on an optional number field with number default
`d`; `undefined`, `null`, `NaN` and `0` are falsy. -/
def jsOrN (v : Option JNum) (d : ℚ) : ℚ :=
  match v with
  | some (.num q) => if q = 0 then d else q
  | _ => d

/-- The JS `x || undefined` idiom on an optional number field. -/
def jsOrUndefN (v : Option JNum) : Option ℚ :=
  match v with
  | some (.num q) => if q = 0 then none else some q
  | _ => none

/-- The JS `x || undefined` idiom on an optional string field. -/
def jsOrUndefS (v : Option String) : Option String :=
  match v with
  | some s => if s = "" then none else some s
  | none => none

/-- A raw backend line item as consumed by `normalizeInvoiceResponse`
(api.ts lines 49-61); every field may be absent. -/
structure RawItem where
  Description : Option String := none
  Name : Option String := none
  Quantity : Option JNum := none
  UnitPrice : Option JNum := none
  Amount : Option JNum := none
deriving DecidableEq

/-- A raw single-invoice backend response object (api.ts lines 32-90). -/
structure RawInvoice where
  InvoiceId : Option String := none
  VendorName : Option String := none
  InvoiceDate : Option String := none
  InvoiceTotal : Option JNum := none
  SubTotal : Option JNum := none
  ShippingCost : Option JNum := none
  ShippingAddress : Option String := none
  BillingAddressRecipient : Option String := none
  Items : Option (List RawItem) := none
deriving DecidableEq

/-- Canonical line item (types/invoice.ts `InvoiceItem`). -/
structure LineItem where
  description : String
  quantity : ℚ
  unitPrice : ℚ
  amount : ℚ
deriving DecidableEq

/-- Canonical invoice view model (types/invoice.ts `Invoice`, with the two
extra fields `shippingCost` and `billingRecipient` that
`normalizeInvoiceResponse` populates). -/
structure Invoice where
  invoiceId : String
  vendorName : String
  invoiceNumber : String
  invoiceDate : String
  dueDate : String
  totalAmount : ℚ
  currency : String
  status : String
  subtotal : Option ℚ := none
  taxAmount : Option ℚ := none
  shippingCost : Option ℚ := none
  shippingAddress : Option String := none
  billingAddress : Option String := none
  billingRecipient : Option String := none
  items : Option (List LineItem) := none
deriving DecidableEq

/-- The keep-filter on raw items (api.ts lines 50-55): the item must have a
truthy `Description` or `Name`, and an `Amount` that is non-null, non-NaN
and non-zero. -/
def keepItem (item : RawItem) : Bool :=
  let hasDescription := truthyS item.Description || truthyS item.Name
  let hasValidAmount :=
    match item.Amount with
    | some (.num q) => decide (q ≠ 0)
    | some .nan => false
    | none => false
  hasDescription && hasValidAmount

/-- Field mapping of a raw item onto the canonical line item
(api.ts lines 56-61). -/
def mapItem (item : RawItem) : LineItem :=
  { description := jsOrS item.Description (jsOrS item.Name "")
    quantity := jsOrN item.Quantity 0
    unitPrice := jsOrN item.UnitPrice 0
    amount := jsOrN item.Amount 0 }

/-- The four-field equality tested by the deduplication `findIndex`
(api.ts lines 65-70). -/
def itemEqb (t item : LineItem) : Bool :=
  decide (t.description = item.description) &&
  decide (t.quantity = item.quantity) &&
  decide (t.unitPrice = item.unitPrice) &&
  decide (t.amount = item.amount)

/-- Recursion underlying the deduplication of api.ts lines 64-71: the
`filter` over `findIndex` keeps an element exactly when no element strictly
before it in the list is `itemEqb`-equal to it.  `seen` holds the elements
strictly before the current one (in reverse order). -/
def dedupItemsAux (seen : List LineItem) : List LineItem → List LineItem
  | [] => []
  | x :: xs =>
    if seen.any (fun t => itemEqb t x) then dedupItemsAux (x :: seen) xs
    else x :: dedupItemsAux (x :: seen) xs

/-- Deduplication of the mapped items (api.ts lines 63-71). -/
def dedupItems (l : List LineItem) : List LineItem :=
  dedupItemsAux [] l

/-- api.ts lines 32-90, `normalizeInvoiceResponse`.  The argument is the
decoded response; `none` models a `null` or absent response, and a thrown
`Error` is an `Except.error` carrying the thrown message. -/
def normalizeInvoiceResponse (response : Option RawInvoice) : Except String Invoice :=
  match response with
  | none => .error "Invalid invoice data: response is null"
  | some r =>
    if truthyS r.InvoiceId then
      let itemsData := r.Items.getD []
      let mappedItems := (itemsData.filter keepItem).map mapItem
      let uniqueItems := dedupItems mappedItems
      .ok {
        invoiceId := r.InvoiceId.getD ""
        vendorName := jsOrS r.VendorName "Unknown"
        invoiceNumber := r.InvoiceId.getD ""
        invoiceDate := jsOrS r.InvoiceDate ""
        dueDate := ""
        totalAmount := jsOrN r.InvoiceTotal 0
        currency := "USD"
        status := "Pending"
        subtotal := jsOrUndefN r.SubTotal
        taxAmount := none
        shippingCost := jsOrUndefN r.ShippingCost
        shippingAddress := some (jsOrS r.ShippingAddress "")
        billingAddress := none
        billingRecipient := jsOrUndefS r.BillingAddressRecipient
        items := some uniqueItems }
    else .error "Invalid invoice data: missing InvoiceId"

/-- The JS `Array.prototype.map` over `normalizeInvoiceResponse`, where a
thrown error aborts the whole map and propagates (api.ts lines 265-271 and
278-280).  A `none` element models a `null` entry of the decoded array. -/
def mapNormalize : List (Option RawInvoice) → Except String (List Invoice)
  | [] => .ok []
  | x :: xs =>
    match normalizeInvoiceResponse x with
    | .error e => .error e
    | .ok inv =>
      match mapNormalize xs with
      | .error e => .error e
      | .ok rest => .ok (inv :: rest)

/-- The decoded JSON of a vendor-search response, as far as the dispatch of
`ApiClient.getInvoicesByVendor` inspects it: an object carries both the
invoice-shaped fields (`inv`) and the optional envelope field `invoices`
(whose elements feed `normalizeInvoiceResponse`), and `arr` is a decoded
JSON array. -/
inductive VendorResponse where
  | obj (inv : RawInvoice) (invoices : Option (List (Option RawInvoice)))
  | arr (elems : List (Option RawInvoice))

/-- api.ts lines 247-290: the response-shape dispatch of
`ApiClient.getInvoicesByVendor` after JSON decoding.  The envelope branch
needs `backendResponse.VendorName && backendResponse.invoices` truthy, and
a present array is truthy in JS even when empty, so the inner
`length === 0` check alone decides the empty result; when the envelope
check fails, the array and then the `InvoiceId` single-object checks run,
and everything else throws the format error. -/
def normalizeVendorResponse : VendorResponse → Except String (List Invoice)
  | .obj inv invoices =>
    match invoices, truthyS inv.VendorName with
    | some l, true =>
      if l.length = 0 then .ok []
      else mapNormalize l
    | _, _ =>
      if truthyS inv.InvoiceId then
        (normalizeInvoiceResponse (some inv)).map (fun x => [x])
      else .error "Unexpected response format from backend"
  | .arr elems => mapNormalize elems

/-- The sort fields of the invoices page (page.tsx line 31). -/
inductive SortField where
  | invoiceDate
  | dueDate
  | totalAmount
  | vendorName
deriving DecidableEq

/-- The sort directions of the invoices page (page.tsx line 32). -/
inductive SortOrder where
  | asc
  | desc
deriving DecidableEq

/-- A value a sort comparison or date filter operates on
(page.tsx lines 137-150): a number, `NaN`, or a string. -/
inductive SKey where
  | num (q : ℚ)
  | nan
  | str (s : String)
deriving DecidableEq

/-- Model of the JavaScript date parser (`new Date(s)` / `Date.parse`),
which is a platform builtin and not part of this repository, restricted to
ISO `YYYY-MM-DD` strings: such a date maps to a number strictly monotone in
the calendar order, and every other string parses to `NaN`.  The claims
under study depend only on which strings parse and on the relative order of
the parsed results, which this model shares with the builtin on its
domain. -/
def parseDateQ (s : String) : Option ℚ :=
  match s.splitOn "-" with
  | [y, m, d] =>
    if y.length = 4 && m.length = 2 && d.length = 2 &&
       y.all Char.isDigit && m.all Char.isDigit && d.all Char.isDigit then
      some (((y.toNat?.getD 0) * 10000 + (m.toNat?.getD 0) * 100 + d.toNat?.getD 0 : ℕ) : ℚ)
    else none
  | _ => none

/-- `new Date(s).getTime()` as a sort key: a number or `NaN`. -/
def parseDate (s : String) : SKey :=
  match parseDateQ s with
  | some q => .num q
  | none => .nan

/-- JS `>` on two sort keys of the same kind; every comparison involving
`NaN` is false.  Keys of mixed kinds never arise in the program: both sides
of a comparison always come from the same sort field. -/
def jsGT : SKey → SKey → Bool
  | .num a, .num b => decide (b < a)
  | .str a, .str b => decide (b < a)
  | _, _ => false

/-- JS `<` on two sort keys; every comparison involving `NaN` is false. -/
def jsLT : SKey → SKey → Bool
  | .num a, .num b => decide (a < b)
  | .str a, .str b => decide (a < b)
  | _, _ => false

/-- JS `>=` as used by the start-date filter (page.tsx line 126); false on
`NaN`. -/
def jsGE : SKey → SKey → Bool
  | .num a, .num b => decide (b ≤ a)
  | .str a, .str b => decide (b ≤ a)
  | _, _ => false

/-- JS `<=` as used by the end-date filter (page.tsx line 131); false on
`NaN`. -/
def jsLE : SKey → SKey → Bool
  | .num a, .num b => decide (a ≤ b)
  | .str a, .str b => decide (a ≤ b)
  | _, _ => false

/-- page.tsx lines 137-150: the comparison value extracted from an invoice
for the chosen sort field — date fields as parsed timestamps, the total as
a number, the vendor name as a lowercased string. -/
def sortKey (f : SortField) (inv : Invoice) : SKey :=
  match f with
  | .invoiceDate => parseDate inv.invoiceDate
  | .dueDate => parseDate inv.dueDate
  | .totalAmount => .num inv.totalAmount
  | .vendorName => .str inv.vendorName.toLower

/-- page.tsx lines 152-156: the comparator passed to `Array.prototype.sort`;
it returns 1 or -1, never 0. -/
def invCmp (o : SortOrder) (f : SortField) (a b : Invoice) : Int :=
  match o with
  | .asc => if jsGT (sortKey f a) (sortKey f b) then 1 else -1
  | .desc => if jsLT (sortKey f a) (sortKey f b) then 1 else -1

/-- The element order induced by the comparator: keep `a` before `b`
whenever the comparator does not demand the swap. -/
def sortLe (o : SortOrder) (f : SortField) (a b : Invoice) : Bool :=
  decide (invCmp o f a b ≤ 0)

/-- `filtered.sort(comparator)` (page.tsx line 136), modelled as the stable
merge sort over `sortLe`. -/
def sortInvoices (o : SortOrder) (f : SortField) (l : List Invoice) : List Invoice :=
  l.mergeSort (sortLe o f)

/-- page.tsx lines 113-160, `processedInvoices`: status filter, start-date
filter, end-date filter and sort, in source order.  `statusFilter`,
`startDate` and `endDate` are the raw strings held by the controls; an
empty date string means the bound is unset, and `statusFilter = "all"`
disables the status filter. -/
def processedInvoices (invoices : List Invoice) (statusFilter startDate endDate : String)
    (sortField : SortField) (sortOrder : SortOrder) : List Invoice :=
  let filtered := invoices
  let filtered :=
    if statusFilter ≠ "all" then
      filtered.filter (fun inv => decide (inv.status.toLower = statusFilter.toLower))
    else filtered
  let filtered :=
    if startDate ≠ "" then
      filtered.filter (fun inv => jsGE (parseDate inv.invoiceDate) (parseDate startDate))
    else filtered
  let filtered :=
    if endDate ≠ "" then
      filtered.filter (fun inv => jsLE (parseDate inv.invoiceDate) (parseDate endDate))
    else filtered
  sortInvoices sortOrder sortField filtered

/-- page.tsx lines 163-166: `processedInvoices.slice(startIndex, endIndex)`
with `startIndex = (currentPage-1)*itemsPerPage` and
`endIndex = startIndex + itemsPerPage`. -/
def paginatedInvoices (processed : List Invoice) (currentPage itemsPerPage : ℕ) : List Invoice :=
  (processed.drop ((currentPage - 1) * itemsPerPage)).take itemsPerPage

/-- The full client-side query pipeline: filter, sort, then paginate. -/
def queryPipeline (invoices : List Invoice) (statusFilter startDate endDate : String)
    (f : SortField) (o : SortOrder) (currentPage itemsPerPage : ℕ) : List Invoice :=
  paginatedInvoices (processedInvoices invoices statusFilter startDate endDate f o)
    currentPage itemsPerPage

/-- One evaluation of the pipeline together with the contents of the
caller's `invoices` array after the evaluation.  The only in-place
operation in the source is `filtered.sort`, and `filtered` starts from the
spread copy `[...invoices]` (page.tsx line 114), so every mutation hits the
copy and the caller's array is left as it was. -/
def queryPipelineRun (invoices : List Invoice) (statusFilter startDate endDate : String)
    (f : SortField) (o : SortOrder) (currentPage itemsPerPage : ℕ) :
    List Invoice × List Invoice :=
  (queryPipeline invoices statusFilter startDate endDate f o currentPage itemsPerPage,
   invoices)

/-- A JavaScript error value: a `TypeError` (the class `fetch` rejects
with on connectivity failure) or a plain `Error`, each carrying its
message. -/
inductive JSError where
  | typeError (msg : String)
  | error (msg : String)
deriving DecidableEq

/-- The distinct connection-failure message (api.ts line 143). -/
def cannotConnectMsg : String :=
  "Cannot connect to backend server. Please ensure the backend is running at http://localhost:8080"

/-- Whether `pat` occurs at the head of `s` (on character lists). -/
def leadsWith : List Char → List Char → Bool
  | [], _ => true
  | _ :: _, [] => false
  | p :: ps, c :: cs => p == c && leadsWith ps cs

/-- Whether `pat` occurs at some position of `s` (on character lists). -/
def containsSub (pat : List Char) : List Char → Bool
  | [] => leadsWith pat []
  | c :: cs => leadsWith pat (c :: cs) || containsSub pat cs

/-- Model of `String.prototype.includes`: the pattern occurs somewhere in
`s`. -/
def containsSubstr (s pat : String) : Bool :=
  containsSub pat.toList s.toList

/-- api.ts lines 139-151: the catch clause of `ApiClient.extractInvoice`.
A `TypeError` whose message mentions `Failed to fetch` is replaced by the
connection-failure `Error`; every other `Error` is rethrown unchanged. -/
def extractInvoiceCatch (e : JSError) : JSError :=
  match e with
  | .typeError m =>
    if containsSubstr m "Failed to fetch" then .error cannotConnectMsg
    else .typeError m
  | .error m => .error m

/-- api.ts lines 209-212: the catch clause of `ApiClient.getInvoiceById`
logs and rethrows the caught error unchanged. -/
def getInvoiceByIdCatch (e : JSError) : JSError := e

/-- api.ts lines 291-294: the catch clause of
`ApiClient.getInvoicesByVendor` logs and rethrows the caught error
unchanged. -/
def getInvoicesByVendorCatch (e : JSError) : JSError := e

/-- An invoice whose sort key under the field `f` is a genuine value and
not `NaN`; numeric sorts over such invoices are totally ordered. -/
def keyOK (f : SortField) (inv : Invoice) : Prop :=
  sortKey f inv ≠ SKey.nan

/-- A concrete invoice used by the closed witness statements. -/
def sampleInvoice : Invoice :=
  { invoiceId := "INV-1"
    vendorName := "Acme"
    invoiceNumber := "INV-1"
    invoiceDate := "2024-03-01"
    dueDate := ""
    totalAmount := 100
    currency := "USD"
    status := "Pending" }

/-- A second concrete invoice with a larger total, for the sort witness. -/
def sampleInvoiceB : Invoice :=
  { sampleInvoice with invoiceId := "INV-2", totalAmount := 200 }

/-- The dropped raw item of the spec example: zero amount. -/
def widgetZero : RawItem :=
  { Description := some "Widget", Amount := some (JNum.num 0) }

/-- The kept raw item of the spec example: amount 12.5. -/
def widgetHalf : RawItem :=
  { Description := some "Widget", Amount := some (JNum.num (25 / 2)) }

/-- A concrete raw invoice holding the two example items. -/
def sampleRaw : RawInvoice :=
  { InvoiceId := some "INV-1", Items := some [widgetZero, widgetHalf] }

/-! ### Helper lemmas -/

theorem truthyS_iff (v : Option String) :
    truthyS v = true ↔ ∃ s, v = some s ∧ s ≠ "" := by
  cases v <;> simp [truthyS]

theorem truthyS_some {s : String} (hs : s ≠ "") : truthyS (some s) = true := by
  simp [truthyS, hs]

/-- Unfolding of the success branch of `normalizeInvoiceResponse`. -/
theorem normalize_some_ok (r : RawInvoice) (ht : truthyS r.InvoiceId = true) :
    normalizeInvoiceResponse (some r) = .ok
      { invoiceId := r.InvoiceId.getD ""
        vendorName := jsOrS r.VendorName "Unknown"
        invoiceNumber := r.InvoiceId.getD ""
        invoiceDate := jsOrS r.InvoiceDate ""
        dueDate := ""
        totalAmount := jsOrN r.InvoiceTotal 0
        currency := "USD"
        status := "Pending"
        subtotal := jsOrUndefN r.SubTotal
        taxAmount := none
        shippingCost := jsOrUndefN r.ShippingCost
        shippingAddress := some (jsOrS r.ShippingAddress "")
        billingAddress := none
        billingRecipient := jsOrUndefS r.BillingAddressRecipient
        items := some (dedupItems (((r.Items.getD []).filter keepItem).map mapItem)) } := by
  simp only [normalizeInvoiceResponse, ht, if_true]

/-! ### C1: normalization fails on a null response or a missing InvoiceId -/

/-- C1: for every single-invoice-shaped input that is null/absent or lacks
`InvoiceId`, `normalizeInvoiceResponse` fails with a structural error
(`response is null` respectively `missing InvoiceId`) and produces no
`Invoice` at all. -/
theorem normalize_missing_id_fails (resp : Option RawInvoice)
    (h : resp = none ∨ ∃ r, resp = some r ∧ r.InvoiceId = none) :
    (normalizeInvoiceResponse resp = .error "Invalid invoice data: response is null" ∨
      normalizeInvoiceResponse resp = .error "Invalid invoice data: missing InvoiceId") ∧
    ∀ inv : Invoice, normalizeInvoiceResponse resp ≠ .ok inv := by
  rcases h with rfl | ⟨r, rfl, hid⟩
  · exact ⟨Or.inl rfl, fun inv h => by simp [normalizeInvoiceResponse] at h⟩
  · have ht : truthyS r.InvoiceId = false := by rw [hid]; rfl
    refine ⟨Or.inr ?_, fun inv h => ?_⟩
    · simp [normalizeInvoiceResponse, ht]
    · simp [normalizeInvoiceResponse, ht] at h

theorem normalize_missing_id_fails_witness :
    (normalizeInvoiceResponse none = .error "Invalid invoice data: response is null" ∨
      normalizeInvoiceResponse none = .error "Invalid invoice data: missing InvoiceId") ∧
    ∀ inv : Invoice, normalizeInvoiceResponse none ≠ .ok inv :=
  normalize_missing_id_fails none (Or.inl rfl)

/-! ### C2: normalization succeeds on a present InvoiceId and copies it -/

/-- C2: for every non-null single-invoice-shaped input whose `InvoiceId` is
a (truthy) string, `normalizeInvoiceResponse` succeeds and the output's
`invoiceId` is exactly the input's `InvoiceId`. -/
theorem normalize_id_ok (r : RawInvoice) (s : String)
    (hid : r.InvoiceId = some s) (hs : s ≠ "") :
    ∃ inv : Invoice, normalizeInvoiceResponse (some r) = .ok inv ∧ inv.invoiceId = s := by
  have ht : truthyS r.InvoiceId = true := by rw [hid]; exact truthyS_some hs
  exact ⟨_, normalize_some_ok r ht, by simp [hid]⟩

theorem normalize_id_ok_witness :
    ({ InvoiceId := some "INV-1" } : RawInvoice).InvoiceId = some "INV-1" ∧
    ∃ inv : Invoice,
      normalizeInvoiceResponse (some { InvoiceId := some "INV-1" }) = .ok inv ∧
      inv.invoiceId = "INV-1" :=
  ⟨rfl, normalize_id_ok _ "INV-1" rfl (by decide)⟩

/-! ### C10: InvoiceId is the only required field; the others default -/

/-- C10: for every single-invoice-shaped input containing a (truthy)
`InvoiceId`, normalization succeeds whatever the other fields are, and a
missing `VendorName` becomes `"Unknown"`, missing `InvoiceDate` and
`ShippingAddress` become the empty string, and a missing `InvoiceTotal`
becomes `0`. -/
theorem normalize_field_defaults (r : RawInvoice) (s : String)
    (hid : r.InvoiceId = some s) (hs : s ≠ "") :
    ∃ inv : Invoice, normalizeInvoiceResponse (some r) = .ok inv ∧
      (r.VendorName = none → inv.vendorName = "Unknown") ∧
      (r.InvoiceDate = none → inv.invoiceDate = "") ∧
      (r.ShippingAddress = none → inv.shippingAddress = some "") ∧
      (r.InvoiceTotal = none → inv.totalAmount = 0) := by
  have ht : truthyS r.InvoiceId = true := by rw [hid]; exact truthyS_some hs
  refine ⟨_, normalize_some_ok r ht, ?_, ?_, ?_, ?_⟩ <;>
    intro h <;> simp [jsOrS, jsOrN, h]

theorem normalize_field_defaults_witness :
    ({ InvoiceId := some "INV-1" } : RawInvoice).InvoiceId = some "INV-1" ∧
    ∃ inv : Invoice,
      normalizeInvoiceResponse (some { InvoiceId := some "INV-1" }) = .ok inv ∧
      (({ InvoiceId := some "INV-1" } : RawInvoice).VendorName = none →
        inv.vendorName = "Unknown") ∧
      (({ InvoiceId := some "INV-1" } : RawInvoice).InvoiceDate = none →
        inv.invoiceDate = "") ∧
      (({ InvoiceId := some "INV-1" } : RawInvoice).ShippingAddress = none →
        inv.shippingAddress = some "") ∧
      (({ InvoiceId := some "INV-1" } : RawInvoice).InvoiceTotal = none →
        inv.totalAmount = 0) :=
  ⟨rfl, normalize_field_defaults _ "INV-1" rfl (by decide)⟩

/-! ### C3: the line-item keep-filter -/

/-- C3: in the single-invoice path a raw line item is retained iff it has a
non-empty `Description` or `Name` and an `Amount` that is non-null, non-NaN
and non-zero; the two spec examples compute as claimed; and invalid items
never make normalization fail — they are dropped silently while the
retained ones are mapped and deduplicated into the output. -/
theorem item_retention :
    (∀ item : RawItem,
      keepItem item = true ↔
        (((∃ s, item.Description = some s ∧ s ≠ "") ∨
          (∃ s, item.Name = some s ∧ s ≠ "")) ∧
         ∃ q, item.Amount = some (JNum.num q) ∧ q ≠ 0)) ∧
    keepItem widgetZero = false ∧
    keepItem widgetHalf = true ∧
    (∀ r : RawInvoice, truthyS r.InvoiceId = true →
      ∃ inv : Invoice, normalizeInvoiceResponse (some r) = .ok inv ∧
        inv.items = some (dedupItems (((r.Items.getD []).filter keepItem).map mapItem))) := by
  refine ⟨fun item => ?_, ?_, ?_, fun r ht => ⟨_, normalize_some_ok r ht, rfl⟩⟩
  · obtain ⟨D, N, Q, U, A⟩ := item
    rcases A with _ | (_ | q) <;>
      simp [keepItem, truthyS_iff, Bool.and_eq_true, Bool.or_eq_true]
  · simp [widgetZero, keepItem]
  · norm_num [widgetHalf, keepItem, truthyS]
    decide

theorem item_retention_witness :
    truthyS sampleRaw.InvoiceId = true ∧
    ∃ inv : Invoice,
      normalizeInvoiceResponse (some sampleRaw) = .ok inv ∧
      inv.items = some (dedupItems (((sampleRaw.Items.getD []).filter keepItem).map mapItem)) :=
  ⟨by decide, item_retention.2.2.2 sampleRaw (by decide)⟩

/-! ### C4: deduplication of mapped line items -/

theorem itemEqb_iff (a b : LineItem) : itemEqb a b = true ↔ a = b := by
  cases a; cases b
  simp [itemEqb, Bool.and_eq_true, decide_eq_true_eq, LineItem.mk.injEq, and_assoc]

theorem any_itemEqb (seen : List LineItem) (x : LineItem) :
    (seen.any fun t => itemEqb t x) = true ↔ x ∈ seen := by
  simp [List.any_eq_true, itemEqb_iff]

theorem dedupItemsAux_sublist (l : List LineItem) :
    ∀ seen, List.Sublist (dedupItemsAux seen l) l := by
  induction l with
  | nil => intro seen; simp [dedupItemsAux]
  | cons x xs ih =>
    intro seen
    cases hb : seen.any fun t => itemEqb t x
    · simpa [dedupItemsAux, hb] using (ih (x :: seen)).cons₂ x
    · simpa [dedupItemsAux, hb] using (ih (x :: seen)).cons x

theorem dedupItemsAux_mem (l : List LineItem) :
    ∀ (seen : List LineItem) (x : LineItem),
      x ∈ dedupItemsAux seen l ↔ x ∈ l ∧ x ∉ seen := by
  induction l with
  | nil => intro seen x; simp [dedupItemsAux]
  | cons y ys ih =>
    intro seen x
    cases hb : seen.any fun t => itemEqb t y
    · have hy : y ∉ seen := by
        intro hc
        rw [← any_itemEqb seen y] at hc
        rw [hc] at hb
        cases hb
      simp only [dedupItemsAux, hb, Bool.false_eq_true, if_false, List.mem_cons, ih,
        List.mem_cons]
      constructor
      · rintro (rfl | ⟨hxs, hns⟩)
        · exact ⟨Or.inl rfl, hy⟩
        · exact ⟨Or.inr hxs, fun hc => hns (Or.inr hc)⟩
      · rintro ⟨rfl | hxs, hns⟩
        · exact Or.inl rfl
        · by_cases hxy : x = y
          · exact Or.inl hxy
          · right
            refine ⟨hxs, ?_⟩
            rintro (hc | hc)
            · exact hxy hc
            · exact hns hc
    · have hy : y ∈ seen := (any_itemEqb seen y).mp hb
      simp only [dedupItemsAux, hb, if_true, ih, List.mem_cons]
      constructor
      · rintro ⟨hxs, hns⟩
        exact ⟨Or.inr hxs, fun hc => hns (Or.inr hc)⟩
      · rintro ⟨rfl | hxs, hns⟩
        · exact absurd hy hns
        · refine ⟨hxs, ?_⟩
          rintro (rfl | hc)
          · exact hns hy
          · exact hns hc

theorem dedupItemsAux_pairwise (l : List LineItem) :
    ∀ seen, (dedupItemsAux seen l).Pairwise fun a b => itemEqb a b = false := by
  induction l with
  | nil => intro seen; simp [dedupItemsAux]
  | cons y ys ih =>
    intro seen
    cases hb : seen.any fun t => itemEqb t y
    · simp only [dedupItemsAux, hb, Bool.false_eq_true, if_false]
      refine List.Pairwise.cons (fun b hbmem => ?_) (ih (y :: seen))
      have hnb : b ∉ y :: seen := ((dedupItemsAux_mem ys (y :: seen) b).mp hbmem).2
      cases hc : itemEqb y b
      · rfl
      · exfalso
        have hyb : y = b := (itemEqb_iff y b).mp hc
        subst hyb
        exact hnb (List.mem_cons_self _ _)
    · simp only [dedupItemsAux, hb, if_true]
      exact ih (y :: seen)

/-- C4: deduplication collapses two items identical in all four canonical
fields to the first one; two items differing in any field both survive; in
general the output is a subsequence of the input (first occurrences, in the
original order), contains no two `itemEqb`-equal items, and keeps exactly
the set of items of the input. -/
theorem dedup_collapses :
    (∀ a b : LineItem,
      a.description = b.description ∧ a.quantity = b.quantity ∧
        a.unitPrice = b.unitPrice ∧ a.amount = b.amount →
      dedupItems [a, b] = [a]) ∧
    (∀ a b : LineItem,
      (a.description ≠ b.description ∨ a.quantity ≠ b.quantity ∨
        a.unitPrice ≠ b.unitPrice ∨ a.amount ≠ b.amount) →
      dedupItems [a, b] = [a, b]) ∧
    (∀ l : List LineItem, List.Sublist (dedupItems l) l) ∧
    (∀ l : List LineItem, (dedupItems l).Pairwise fun x y => itemEqb x y = false) ∧
    (∀ (l : List LineItem) (x : LineItem), x ∈ dedupItems l ↔ x ∈ l) := by
  refine ⟨fun a b h => ?_, fun a b h => ?_, fun l => dedupItemsAux_sublist l [],
    fun l => dedupItemsAux_pairwise l [], fun l x => ?_⟩
  · have he : itemEqb a b = true := by
      cases a; cases b
      simp only [itemEqb, Bool.and_eq_true, decide_eq_true_eq]
      obtain ⟨h1, h2, h3, h4⟩ := h
      exact ⟨⟨⟨h1, h2⟩, h3⟩, h4⟩
    simp [dedupItems, dedupItemsAux, he]
  · have he : itemEqb a b = false := by
      cases hc : itemEqb a b
      · rfl
      · rw [itemEqb_iff] at hc
        subst hc
        rcases h with h | h | h | h <;> exact absurd rfl h
    simp [dedupItems, dedupItemsAux, he]
  · rw [dedupItems, dedupItemsAux_mem l [] x]
    simp

theorem dedup_collapses_witness :
    (let a : LineItem := ⟨"Widget", 1, 2, 2⟩
     let b : LineItem := ⟨"Widget", 1, 2, 2⟩
     a.description = b.description ∧ a.quantity = b.quantity ∧
       a.unitPrice = b.unitPrice ∧ a.amount = b.amount) ∧
    dedupItems [⟨"Widget", 1, 2, 2⟩, ⟨"Widget", 1, 2, 2⟩] = [⟨"Widget", 1, 2, 2⟩] :=
  ⟨⟨rfl, rfl, rfl, rfl⟩, dedup_collapses.1 _ _ ⟨rfl, rfl, rfl, rfl⟩⟩

/-! ### C5: vendor-response shape dispatch -/

theorem mapNormalize_ok_length :
    ∀ (l : List (Option RawInvoice)) (res : List Invoice),
      mapNormalize l = .ok res → res.length = l.length := by
  intro l
  induction l with
  | nil =>
    intro res h
    simp only [mapNormalize, Except.ok.injEq] at h
    simp [← h]
  | cons x xs ih =>
    intro res h
    simp only [mapNormalize] at h
    cases hx : normalizeInvoiceResponse x with
    | error e => rw [hx] at h; cases h
    | ok inv =>
      rw [hx] at h
      cases hxs : mapNormalize xs with
      | error e => rw [hxs] at h; cases h
      | ok rest =>
        rw [hxs] at h
        cases h
        simp [ih rest hxs]

/-- C5 counterexample: an envelope-shaped object whose inner `invoices`
list is absent is not recognized by the envelope branch (the JS truthiness
check `VendorName && invoices` fails), falls through both remaining shape
checks, and raises the format error instead of producing an empty invoice
sequence. -/
theorem vendor_envelope_absent_list_errors :
    normalizeVendorResponse (.obj { VendorName := some "Acme" } none) =
      .error "Unexpected response format from backend" ∧
    ∀ res : List Invoice,
      normalizeVendorResponse (.obj { VendorName := some "Acme" } none) ≠ .ok res := by
  refine ⟨rfl, fun res h => ?_⟩
  rw [show normalizeVendorResponse (.obj { VendorName := some "Acme" } none) =
      .error "Unexpected response format from backend" from rfl] at h
  cases h

/-- C5 (amended): the dispatch accepts an envelope with a present (possibly
empty) inner list, a bare array, and a bare single-invoice object,
producing 0 or the inner list's length, the array's length, and 1 invoices
respectively; an object that is neither a recognized envelope (present
inner list with truthy `VendorName`) nor carries a truthy `InvoiceId`
raises the format error — in particular an envelope whose inner list is
absent does. -/
theorem vendor_shape_lengths :
    (∀ inv : RawInvoice, truthyS inv.VendorName = true →
      normalizeVendorResponse (.obj inv (some [])) = .ok []) ∧
    (∀ (inv : RawInvoice) (l : List (Option RawInvoice)) (res : List Invoice),
      truthyS inv.VendorName = true → mapNormalize l = .ok res →
      normalizeVendorResponse (.obj inv (some l)) = .ok res ∧ res.length = l.length) ∧
    (∀ (l : List (Option RawInvoice)) (res : List Invoice),
      mapNormalize l = .ok res →
      normalizeVendorResponse (.arr l) = .ok res ∧ res.length = l.length) ∧
    (∀ (inv : RawInvoice) (invs : Option (List (Option RawInvoice))) (x : Invoice),
      (invs = none ∨ truthyS inv.VendorName = false) →
      truthyS inv.InvoiceId = true →
      normalizeInvoiceResponse (some inv) = .ok x →
      normalizeVendorResponse (.obj inv invs) = .ok [x]) ∧
    (∀ (inv : RawInvoice) (invs : Option (List (Option RawInvoice))),
      (invs = none ∨ truthyS inv.VendorName = false) →
      truthyS inv.InvoiceId = false →
      normalizeVendorResponse (.obj inv invs) =
        .error "Unexpected response format from backend") := by
  refine ⟨fun inv hV => ?_, fun inv l res hV hm => ?_, fun l res hm => ?_,
    fun inv invs x hE hid hx => ?_, fun inv invs hE hid => ?_⟩
  · simp [normalizeVendorResponse, hV]
  · cases l with
    | nil =>
      simp only [mapNormalize, Except.ok.injEq] at hm
      subst hm
      exact ⟨by simp [normalizeVendorResponse, hV], rfl⟩
    | cons y ys =>
      refine ⟨?_, mapNormalize_ok_length _ _ hm⟩
      simp [normalizeVendorResponse, hV, hm]
  · exact ⟨hm, mapNormalize_ok_length _ _ hm⟩
  · rcases hE with rfl | hV
    · cases hT : truthyS inv.VendorName <;>
        simp [normalizeVendorResponse, hT, hid, hx, Except.map]
    · cases invs <;> simp [normalizeVendorResponse, hV, hid, hx, Except.map]
  · rcases hE with rfl | hV
    · cases hT : truthyS inv.VendorName <;>
        simp [normalizeVendorResponse, hT, hid]
    · cases invs <;> simp [normalizeVendorResponse, hV, hid]

theorem vendor_shape_lengths_witness :
    truthyS ({ VendorName := some "Acme" } : RawInvoice).VendorName = true ∧
    normalizeVendorResponse (.obj { VendorName := some "Acme" } (some [])) = .ok [] :=
  ⟨by decide, vendor_shape_lengths.1 _ (by decide)⟩

/-! ### C6: the query pipeline is a pure function of its inputs -/

/-- C6: the filter → sort → paginate pipeline is deterministic and does not
modify its input: evaluating it a second time — on the `invoices` array as
the first evaluation left it — yields the same output, and the array
contents after a run equal the contents before. -/
theorem query_pipeline_pure (invoices : List Invoice)
    (statusFilter startDate endDate : String) (f : SortField) (o : SortOrder)
    (currentPage itemsPerPage : ℕ) :
    (queryPipelineRun invoices statusFilter startDate endDate f o
        currentPage itemsPerPage).1 =
      (queryPipelineRun
        (queryPipelineRun invoices statusFilter startDate endDate f o
          currentPage itemsPerPage).2
        statusFilter startDate endDate f o currentPage itemsPerPage).1 ∧
    (queryPipelineRun invoices statusFilter startDate endDate f o
        currentPage itemsPerPage).2 = invoices :=
  ⟨rfl, rfl⟩

/-! ### C8: pagination boundaries -/

/-- C8: pagination takes the slice from `(currentPage-1)*itemsPerPage` of
length at most `itemsPerPage`: twelve invoices at page size 10 give pages
of 10, 2 and 0 records, and any page whose start index reaches past the
list yields the empty list rather than an error. -/
theorem pagination_bounds :
    (∀ l : List Invoice, l.length = 12 →
      (paginatedInvoices l 1 10).length = 10 ∧
      (paginatedInvoices l 2 10).length = 2 ∧
      (paginatedInvoices l 3 10).length = 0) ∧
    (∀ (l : List Invoice) (p s : ℕ), l.length ≤ (p - 1) * s →
      paginatedInvoices l p s = []) := by
  constructor
  · intro l h
    refine ⟨?_, ?_, ?_⟩ <;> simp [paginatedInvoices, h]
  · intro l p s h
    have hd : l.drop ((p - 1) * s) = [] := by
      rw [List.drop_eq_nil_iff]
      exact h
    simp [paginatedInvoices, hd]

theorem pagination_bounds_witness :
    (List.replicate 12 sampleInvoice).length = 12 ∧
    (paginatedInvoices (List.replicate 12 sampleInvoice) 1 10).length = 10 ∧
    (paginatedInvoices (List.replicate 12 sampleInvoice) 2 10).length = 2 ∧
    (paginatedInvoices (List.replicate 12 sampleInvoice) 3 10).length = 0 ∧
    (List.replicate 12 sampleInvoice).length ≤ (4 - 1) * 10 ∧
    paginatedInvoices (List.replicate 12 sampleInvoice) 4 10 = [] :=
  ⟨by simp,
   (pagination_bounds.1 _ (by simp)).1,
   (pagination_bounds.1 _ (by simp)).2.1,
   (pagination_bounds.1 _ (by simp)).2.2,
   by simp,
   pagination_bounds.2 _ 4 10 (by simp)⟩

/-! ### C9: surfacing of connectivity failures -/

/-- C9 counterexample: a connectivity rejection (`TypeError` with message
`Failed to fetch`) reaches the catch clauses of `ApiClient.getInvoiceById`
and `ApiClient.getInvoicesByVendor` and is rethrown as is, not replaced by
the distinct cannot-connect message. -/
theorem connectivity_rethrown_unmapped :
    getInvoiceByIdCatch (.typeError "Failed to fetch") =
      .typeError "Failed to fetch" ∧
    getInvoicesByVendorCatch (.typeError "Failed to fetch") =
      .typeError "Failed to fetch" ∧
    JSError.typeError "Failed to fetch" ≠ JSError.error cannotConnectMsg :=
  ⟨rfl, rfl, by decide⟩

/-- C9 (amended): only `ApiClient.extractInvoice` converts a connectivity
failure (a `TypeError` whose message mentions `Failed to fetch`) into the
distinct cannot-connect message; the catch clauses of
`ApiClient.getInvoiceById` and `ApiClient.getInvoicesByVendor` rethrow
every caught error unchanged. -/
theorem connectivity_error_surfacing :
    (∀ m : String, containsSubstr m "Failed to fetch" = true →
      extractInvoiceCatch (.typeError m) = .error cannotConnectMsg) ∧
    (∀ e : JSError, getInvoiceByIdCatch e = e) ∧
    (∀ e : JSError, getInvoicesByVendorCatch e = e) := by
  refine ⟨fun m h => ?_, fun e => rfl, fun e => rfl⟩
  simp [extractInvoiceCatch, h]

theorem connectivity_error_surfacing_witness :
    containsSubstr "Failed to fetch" "Failed to fetch" = true ∧
    extractInvoiceCatch (.typeError "Failed to fetch") = .error cannotConnectMsg :=
  ⟨by decide, connectivity_error_surfacing.1 "Failed to fetch" (by decide)⟩

/-! ### C7: the sort step -/

theorem sortLe_asc (f : SortField) (a b : Invoice) :
    sortLe .asc f a b = !jsGT (sortKey f a) (sortKey f b) := by
  cases h : jsGT (sortKey f a) (sortKey f b) <;>
    simp [sortLe, invCmp, h]

theorem sortLe_desc (f : SortField) (a b : Invoice) :
    sortLe .desc f a b = !jsLT (sortKey f a) (sortKey f b) := by
  cases h : jsLT (sortKey f a) (sortKey f b) <;>
    simp [sortLe, invCmp, h]

theorem jsGT_total (k1 k2 : SKey) : jsGT k1 k2 = false ∨ jsGT k2 k1 = false := by
  rcases k1 with q1 | _ | s1 <;> rcases k2 with q2 | _ | s2 <;>
    simp [jsGT, not_lt] <;> exact le_total _ _

theorem jsLT_total (k1 k2 : SKey) : jsLT k1 k2 = false ∨ jsLT k2 k1 = false := by
  rcases k1 with q1 | _ | s1 <;> rcases k2 with q2 | _ | s2 <;>
    simp [jsLT, not_lt] <;> exact le_total _ _

theorem sortLe_total (o : SortOrder) (f : SortField) (a b : Invoice) :
    sortLe o f a b || sortLe o f b a := by
  cases o
  · rw [sortLe_asc, sortLe_asc]
    rcases jsGT_total (sortKey f a) (sortKey f b) with h | h <;> simp [h]
  · rw [sortLe_desc, sortLe_desc]
    rcases jsLT_total (sortKey f a) (sortKey f b) with h | h <;> simp [h]

theorem parseDate_shape (s : String) :
    parseDate s = .nan ∨ ∃ q, parseDate s = .num q := by
  cases h : parseDateQ s <;> simp [parseDate, h]

theorem sortKey_shape_num (f : SortField) (hf : f ≠ SortField.vendorName)
    (inv : Invoice) : sortKey f inv = .nan ∨ ∃ q, sortKey f inv = .num q := by
  cases f
  · exact parseDate_shape _
  · exact parseDate_shape _
  · exact Or.inr ⟨_, rfl⟩
  · exact absurd rfl hf

theorem sortKey_shape_str (inv : Invoice) :
    ∃ s, sortKey .vendorName inv = .str s :=
  ⟨_, rfl⟩

theorem sortLe_trans_of_keyOK (o : SortOrder) (f : SortField) {a b c : Invoice}
    (ha : keyOK f a) (hb : keyOK f b) (hc : keyOK f c)
    (h1 : sortLe o f a b) (h2 : sortLe o f b c) : sortLe o f a c := by
  by_cases hf : f = SortField.vendorName
  · subst hf
    obtain ⟨sa, hsa⟩ := sortKey_shape_str a
    obtain ⟨sb, hsb⟩ := sortKey_shape_str b
    obtain ⟨sc, hsc⟩ := sortKey_shape_str c
    cases o
    · rw [sortLe_asc] at h1 h2 ⊢
      rw [hsa, hsb] at h1
      rw [hsb, hsc] at h2
      rw [hsa, hsc]
      simp only [jsGT, Bool.not_eq_true', decide_eq_false_iff_not, not_lt] at h1 h2 ⊢
      exact le_trans h1 h2
    · rw [sortLe_desc] at h1 h2 ⊢
      rw [hsa, hsb] at h1
      rw [hsb, hsc] at h2
      rw [hsa, hsc]
      simp only [jsLT, Bool.not_eq_true', decide_eq_false_iff_not, not_lt] at h1 h2 ⊢
      exact le_trans h2 h1
  · rcases sortKey_shape_num f hf a with hna | ⟨qa, hqa⟩
    · exact absurd hna ha
    rcases sortKey_shape_num f hf b with hnb | ⟨qb, hqb⟩
    · exact absurd hnb hb
    rcases sortKey_shape_num f hf c with hnc | ⟨qc, hqc⟩
    · exact absurd hnc hc
    cases o
    · rw [sortLe_asc] at h1 h2 ⊢
      rw [hqa, hqb] at h1
      rw [hqb, hqc] at h2
      rw [hqa, hqc]
      simp only [jsGT, Bool.not_eq_true', decide_eq_false_iff_not, not_lt] at h1 h2 ⊢
      exact le_trans h1 h2
    · rw [sortLe_desc] at h1 h2 ⊢
      rw [hqa, hqb] at h1
      rw [hqb, hqc] at h2
      rw [hqa, hqc]
      simp only [jsLT, Bool.not_eq_true', decide_eq_false_iff_not, not_lt] at h1 h2 ⊢
      exact le_trans h2 h1

theorem jsLT_of_not_gt_ne (f : SortField) {a b : Invoice}
    (ha : keyOK f a) (hb : keyOK f b)
    (hgt : jsGT (sortKey f a) (sortKey f b) = false)
    (hne : sortKey f a ≠ sortKey f b) :
    jsLT (sortKey f a) (sortKey f b) = true := by
  by_cases hf : f = SortField.vendorName
  · subst hf
    obtain ⟨sa, hsa⟩ := sortKey_shape_str a
    obtain ⟨sb, hsb⟩ := sortKey_shape_str b
    rw [hsa, hsb] at hgt hne ⊢
    simp only [jsGT, decide_eq_false_iff_not, not_lt] at hgt
    simp only [jsLT, decide_eq_true_eq]
    exact lt_of_le_of_ne hgt (fun h => hne (by rw [h]))
  · rcases sortKey_shape_num f hf a with hna | ⟨qa, hqa⟩
    · exact absurd hna ha
    rcases sortKey_shape_num f hf b with hnb | ⟨qb, hqb⟩
    · exact absurd hnb hb
    rw [hqa, hqb] at hgt hne ⊢
    simp only [jsGT, decide_eq_false_iff_not, not_lt] at hgt
    simp only [jsLT, decide_eq_true_eq]
    exact lt_of_le_of_ne hgt (fun h => hne (by rw [h]))

theorem sortLe_of_key_eq (o : SortOrder) (f : SortField) {a b : Invoice}
    (h : sortKey f a = sortKey f b) : sortLe o f a b := by
  cases o
  · rw [sortLe_asc, h]
    rcases sortKey f b with q | _ | s <;> simp [jsGT, lt_irrefl]
  · rw [sortLe_desc, h]
    rcases sortKey f b with q | _ | s <;> simp [jsLT, lt_irrefl]

theorem pmap_subtype_map_val {α : Type} {p : α → Prop} :
    ∀ (l : List α) (H : ∀ x ∈ l, p x),
      (l.pmap (fun x hx => (⟨x, hx⟩ : {y // p y})) H).map Subtype.val = l := by
  intro l
  induction l with
  | nil => intro H; rfl
  | cons a t ih => intro H; simp [List.pmap, ih]

theorem sublist_pmap {α β : Type} {p : α → Prop} (g : ∀ a, p a → β)
    {s l : List α} (hsub : List.Sublist s l) :
    ∀ (H : ∀ x ∈ l, p x) (Hs : ∀ x ∈ s, p x),
      List.Sublist (s.pmap g Hs) (l.pmap g H) := by
  induction hsub with
  | slnil => intro H Hs; exact List.Sublist.slnil
  | cons a hsub ih =>
    intro H Hs
    simp only [List.pmap]
    exact (ih (fun x hx => H x (List.mem_cons_of_mem a hx)) Hs).cons _
  | cons₂ a hsub ih =>
    intro H Hs
    simp only [List.pmap]
    exact (ih (fun x hx => H x (List.mem_cons_of_mem a hx))
      (fun x hx => Hs x (List.mem_cons_of_mem a hx))).cons₂ _

/-- C7: over a list of invoices whose sort keys are all defined (no `NaN`
date; automatic for `totalAmount` and `vendorName`), the ascending sort
places the strictly smaller key first for every pair with distinct keys,
and for every pair with equal keys the original relative order is
preserved (stability of the underlying sort), in both directions. -/
theorem sort_step_correct (f : SortField) (l : List Invoice)
    (H : ∀ x ∈ l, keyOK f x) :
    ((sortInvoices .asc f l).Pairwise fun a b =>
      sortKey f a ≠ sortKey f b → jsLT (sortKey f a) (sortKey f b) = true) ∧
    ∀ (o : SortOrder) (a b : Invoice), sortKey f a = sortKey f b →
      List.Sublist [a, b] l → List.Sublist [a, b] (sortInvoices o f l) := by
  have htrans : ∀ (o : SortOrder) (x y z : {v : Invoice // keyOK f v}),
      sortLe o f x.val y.val → sortLe o f y.val z.val → sortLe o f x.val z.val :=
    fun o x y z => sortLe_trans_of_keyOK o f x.2 y.2 z.2
  have htotal : ∀ (o : SortOrder) (x y : {v : Invoice // keyOK f v}),
      sortLe o f x.val y.val || sortLe o f y.val x.val :=
    fun o x y => sortLe_total o f x.val y.val
  have hms : ∀ o : SortOrder,
      ((l.pmap (fun x hx => (⟨x, hx⟩ : {v : Invoice // keyOK f v})) H).mergeSort
          (fun x y => sortLe o f x.val y.val)).map Subtype.val
        = sortInvoices o f l := by
    intro o
    have step := @List.map_mergeSort {v : Invoice // keyOK f v} Invoice
      (fun x y => sortLe o f x.val y.val) (sortLe o f) Subtype.val
      (l.pmap (fun x hx => ⟨x, hx⟩) H) (fun x _ y _ => rfl)
    rw [step, pmap_subtype_map_val l H]
    rfl
  constructor
  · have hp := List.sorted_mergeSort (htrans .asc) (htotal .asc)
      (l.pmap (fun x hx => (⟨x, hx⟩ : {v : Invoice // keyOK f v})) H)
    rw [← hms .asc, List.pairwise_map]
    refine hp.imp fun {x y} hxy => ?_
    intro hne
    have hgt : jsGT (sortKey f x.val) (sortKey f y.val) = false := by
      cases hb2 : jsGT (sortKey f x.val) (sortKey f y.val)
      · rfl
      · rw [sortLe_asc, hb2] at hxy
        simp at hxy
    exact jsLT_of_not_gt_ne f x.2 y.2 hgt hne
  · intro o a b hk hsub
    have ha : keyOK f a := H a (hsub.subset (List.mem_cons_self a [b]))
    have hb : keyOK f b :=
      H b (hsub.subset (List.mem_cons_of_mem a (List.mem_cons_self b [])))
    have Hs : ∀ x ∈ [a, b], keyOK f x := by
      intro x hx
      rcases List.mem_cons.mp hx with rfl | hx
      · exact ha
      · rcases List.mem_cons.mp hx with rfl | hx
        · exact hb
        · exact absurd hx (List.not_mem_nil x)
    have hpm : List.Sublist
        ([a, b].pmap (fun x hx => (⟨x, hx⟩ : {v : Invoice // keyOK f v})) Hs)
        (l.pmap (fun x hx => ⟨x, hx⟩) H) :=
      sublist_pmap _ hsub H Hs
    have hpair : [a, b].pmap (fun x hx => (⟨x, hx⟩ : {v : Invoice // keyOK f v})) Hs
        = [⟨a, ha⟩, ⟨b, hb⟩] := rfl
    rw [hpair] at hpm
    have hab : sortLe o f a b := sortLe_of_key_eq o f hk
    have h2 := List.pair_sublist_mergeSort (htrans o) (htotal o) hab hpm
    have h3 := h2.map Subtype.val
    rw [hms o] at h3
    exact h3

theorem sort_step_correct_witness :
    (∀ x ∈ [sampleInvoiceB, sampleInvoice], keyOK SortField.totalAmount x) ∧
    ((sortInvoices .asc .totalAmount [sampleInvoiceB, sampleInvoice]).Pairwise fun a b =>
      sortKey .totalAmount a ≠ sortKey .totalAmount b →
        jsLT (sortKey .totalAmount a) (sortKey .totalAmount b) = true) :=
  ⟨fun x _ => by simp [keyOK, sortKey],
   (sort_step_correct .totalAmount _ (fun x _ => by simp [keyOK, sortKey])).1⟩

end FrontInv
